import Mathlib

/-!
Shallow embedding of the reliability and membership engine of
`src/ws4/netchat.py` (a peer-to-peer LAN chat / file-transfer node).

Conventions of the embedding:
* Python byte strings are `List Nat`; Python `time.time()` values are `Nat`
  (for the transfer machinery, where only `t0 + PACKET_TIMEOUT < t1`
  comparisons occur) or `Int` (for peer-table timestamps, where `now - seen`
  differences are taken).  All claims under study only involve integral
  time values, so no floating-point behaviour is lost.
* Python dicts keyed by strings are association lists `List (String × _)`.
* A Python statement sequence that can raise is modelled by returning an
  optional `PyErr` together with the state as mutated up to the raise point.
-/

namespace Netchat

/-- Python exception kinds that the modelled code can raise.  `jsonDecode`
stands for `json.JSONDecodeError`, the rest for the like-named builtins. -/
inductive PyErr
  | keyError
  | typeError
  | attributeError
  | jsonDecode
deriving DecidableEq, Repr

/-- `BATCH_SIZE = 1500` (bytes), line 49 of the source. -/
def BATCH_SIZE : Nat := 1500

/-- `PACKET_TIMEOUT = 1` (seconds), line 51 of the source. -/
def PACKET_TIMEOUT : Nat := 1

/-- `PRUNING_PERIOD = 120` (seconds), line 48 of the source. -/
def PRUNING_PERIOD : Int := 120

/-- Splitting a byte string into consecutive batches of `k` bytes (the last
one possibly shorter), as the loop
`while (batch := file.read(self.batch_size)): self.packets.append(batch)`
does in `SendCtx.__init__` (lines 82-85).  For `l ≠ []` and `k ≥ 1` the
recursive call receives `xs.drop (k-1) = (x :: xs).drop k`; the source only
ever uses `k = BATCH_SIZE = 1500`. -/
def chunksOf (k : Nat) : List Nat → List (List Nat)
  | [] => []
  | x :: xs => ((x :: xs).take k) :: chunksOf k (xs.drop (k - 1))
termination_by l => l.length
decreasing_by
  simp only [List.length_drop, List.length_cons]
  omega

/-- Body of a type-4 file message: the total chunk count when `seq = 0`,
raw chunk bytes otherwise (`FILE_MESSAGE`, lines 31-36). -/
inductive FileBody
  | count (n : Nat)
  | bytes (b : List Nat)
deriving DecidableEq, Repr

/-- A type-4 (`FILE_MESSAGE`) wire message as built by
`SendCtx.build_message`: fields `name`, `seq`, `body`. -/
structure FileMsg where
  name : String
  seq : Nat
  body : FileBody
deriving DecidableEq, Repr

/-- A type-5 (`ACK_MESSAGE`) wire message: fields `name`, `seq`, `rwnd`
(lines 38-43). -/
structure AckMsg where
  name : String
  seq : Nat
  rwnd : Nat
deriving DecidableEq, Repr

/-- Sender-side transfer context, `class SendCtx` (lines 65-123).
`on_fly` holds `(timestamp, seq)` pairs exactly as the Python
`self.on_fly.append((time.time(), self.seq))` does. -/
structure SendCtx where
  filepath : String
  ip : String
  filesize : Nat
  batch_size : Nat
  packet_count : Nat
  seq : Nat
  rwnd : Nat
  packets : List (List Nat)
  acked : List Nat
  on_fly : List (Nat × Nat)
deriving Repr

/-- The `packet_count` computation of `SendCtx.__init__` (line 75):
`filesize // batch_size` if the division is exact, else one more. -/
def packetCount (filesize batch : Nat) : Nat :=
  if filesize % batch == 0 then filesize / batch else filesize / batch + 1

/-- `SendCtx.__init__` (lines 69-85) as invoked from the `:send_file`
command handler (line 281): `SendCtx(filename, ip)` passes neither
`batch_size` nor `rwnd`, so the defaults `BATCH_SIZE` and `1` apply.
The file content is the byte list `file`; `os.stat(...).st_size` is its
length. -/
def mkSendCtx (ip : String) (file : List Nat) : SendCtx :=
  { filepath := "f"
    ip := ip
    filesize := file.length
    batch_size := BATCH_SIZE
    packet_count := packetCount file.length BATCH_SIZE
    seq := 1
    rwnd := 1
    packets := chunksOf BATCH_SIZE file
    acked := []
    on_fly := [] }

/-- `SendCtx.build_message` (lines 87-99): `seq = 0` carries the packet
count, otherwise `self.packets[seq - 1]`.  The list index is written with a
default (the cursor values reached by the daemon keep it in range). -/
def SendCtx.build_message (c : SendCtx) (s : Nat) : FileMsg :=
  if s == 0 then { name := c.filepath, seq := s, body := FileBody.count c.packet_count }
  else { name := c.filepath, seq := s, body := FileBody.bytes (c.packets.getD (s - 1) []) }

/-- `SendCtx.is_complete` (lines 109-110): literally
`self.seq == self.packet_count - 1` — a test on the send cursor, not on the
acknowledged count. -/
def SendCtx.is_complete (c : SendCtx) : Bool :=
  c.seq == c.packet_count - 1

/-- `SendCtx.get_next_message` (lines 101-107): returns `None` once the
cursor reaches `packet_count - 1`; otherwise appends
`(time.time(), self.seq)` to `on_fly`, increments the cursor and returns
`build_message(self.seq - 1)` (built at the pre-increment cursor).  The
current time is the parameter `t`. -/
def SendCtx.get_next_message (t : Nat) (c : SendCtx) : Option FileMsg × SendCtx :=
  if c.seq == c.packet_count - 1 then (none, c)
  else
    (some (c.build_message c.seq),
     { c with on_fly := c.on_fly ++ [(t, c.seq)], seq := c.seq + 1 })

/-- `SendCtx.ack` (lines 112-120): append `seq` to `acked` unless already
present; unconditionally drop it from `on_fly`. -/
def SendCtx.ack (c : SendCtx) (s : Nat) : SendCtx :=
  { c with
    acked := if c.acked.contains s then c.acked else c.acked ++ [s]
    on_fly := c.on_fly.filter (fun p => p.2 != s) }

/-- `SendCtx.is_open_to_send` (lines 122-123):
`len(self.on_fly) < self.rwnd and not self.is_complete()`. -/
def SendCtx.is_open_to_send (c : SendCtx) : Bool :=
  decide (c.on_fly.length < c.rwnd) && !c.is_complete

/-- The acknowledgement handling of `Netchat.process_message`
(lines 421-433) on the context it looked up: first
`send_ctx.rwnd = int(data["rwnd"])`, then if `is_complete()` the slot is
overwritten with `None` (modelled as `none`), else `send_ctx.ack(seq)`. -/
def SendCtx.ackStep (c : SendCtx) (s : Nat) (cr : Nat) : Option SendCtx :=
  if (SendCtx.is_complete { c with rwnd := cr }) then none
  else some (SendCtx.ack { c with rwnd := cr } s)

/-- What one pass of `Netchat.file_transfer_daemon` (lines 326-340) sends
for one context.  A retransmission passes `content=packet[1]` — the bare
sequence number, not a rebuilt chunk message (line 334); a fresh send
passes the `get_next_message` result (lines 336-337). -/
inductive Emission
  | resend (s : Nat)
  | send (m : Option FileMsg)
deriving DecidableEq, Repr

/-- The retransmission loop of the daemon (lines 332-334): for every
`on_fly` entry with `packet[0] + PACKET_TIMEOUT < time.time()`, emit
`content=packet[1]` — the bare sequence number.  The loop neither rebuilds
the chunk message nor touches `on_fly` (no timestamp refresh). -/
def retransOf (t : Nat) (c : SendCtx) : List Emission :=
  (c.on_fly.filter (fun p => decide (p.1 + PACKET_TIMEOUT < t))).map
    (fun p => Emission.resend p.2)

/-- One pass of `Netchat.file_transfer_daemon` (lines 326-340) over a single
context, at current time `t`: a complete context is deleted (`none`);
otherwise every `on_fly` entry with `packet[0] + PACKET_TIMEOUT < t` is
re-emitted (as the bare seq number, with `on_fly` — including every
timestamp — left untouched), and if `is_open_to_send()` one fresh
`get_next_message` is sent.  The source sends at most one fresh chunk per
pass (an `if`, not a loop). -/
def daemonPass (t : Nat) (c : SendCtx) : Option SendCtx × List Emission :=
  if c.is_complete then (none, [])
  else if c.is_open_to_send then
    (some (c.get_next_message t).2, retransOf t c ++ [Emission.send (c.get_next_message t).1])
  else (some c, retransOf t c)

/-- External events that drive one send context during its lifetime: a
daemon pass at time `t`, or an inbound type-5 ack carrying `(seq, rwnd)`
processed by lines 421-433. -/
inductive Ev
  | tick (t : Nat)
  | ack (s : Nat) (cr : Nat)
deriving DecidableEq, Repr

/-- One event applied to the (possibly already deleted) context. -/
def step (o : Option SendCtx) : Ev → Option SendCtx × List Emission
  | Ev.tick t =>
    match o with
    | none => (none, [])
    | some c => daemonPass t c
  | Ev.ack s cr =>
    match o with
    | none => (none, [])
    | some c => (c.ackStep s cr, [])

/-- A whole event sequence applied to a context, collecting everything the
daemon emitted along the way. -/
def run (o : Option SendCtx) : List Ev → Option SendCtx × List Emission
  | [] => (o, [])
  | e :: es =>
    let r := step o e
    let r2 := run r.1 es
    (r2.1, r.2 ++ r2.2)

/-- The sequence number of a first-transmission emission (a fresh
`get_next_message` send); retransmissions yield `none`. -/
def freshSeqOf : Emission → Option Nat
  | Emission.send (some m) => some m.seq
  | _ => none

/-- All sequence numbers first-transmitted during a run. -/
def sentFresh (r : Option SendCtx × List Emission) : List Nat :=
  r.2.filterMap freshSeqOf

/-- A stored received chunk: `RecvCtx.add_packet` appends the whole inbound
message dict; the fields relevant to the code are `seq` and `body`. -/
structure RPacket where
  seq : Nat
  body : List Nat
deriving DecidableEq, Repr

/-- Receiver-side transfer context, `class RecvCtx` (lines 125-183). -/
structure RecvCtx where
  filepath : String
  ip : String
  packet_count : Nat
  seq : Nat
  packets : List RPacket
  acked : List Nat
deriving Repr

/-- `RecvCtx.build_message` (lines 140-145): the type-5 ack with
`rwnd = self.packet_count - len(self.acked)`.  Dead code in the source: no
caller exists. -/
def RecvCtx.build_message (c : RecvCtx) (s : Nat) : AckMsg :=
  { name := c.filepath, seq := s, rwnd := c.packet_count - c.acked.length }

/-- `RecvCtx.add_packet` (lines 154-161): append the packet unless one with
the same `seq` is already stored. -/
def RecvCtx.add_packet (c : RecvCtx) (p : RPacket) : RecvCtx :=
  if c.packets.any (fun q => q.seq == p.seq) then c
  else { c with packets := c.packets ++ [p] }

/-- `RecvCtx.is_complete` (lines 163-164): again a cursor test
`self.seq == self.packet_count - 1` (and `RecvCtx.seq` stays at its initial
value 1 — nothing on the receive path ever changes it). -/
def RecvCtx.is_complete (c : RecvCtx) : Bool :=
  c.seq == c.packet_count - 1

/-- The effective `RecvCtx.write_to_file`.  The class body defines
`write_to_file` twice (lines 171-174 and 180-183); in Python the later
definition shadows the earlier one, and it executes
`file.write(packet)` on each stored packet — `packet` being the message
dict, not bytes, so the first write raises `TypeError`.  Hence: `ok` on an
empty packet list, `TypeError` otherwise, and never a write of the
concatenated payloads. -/
def RecvCtx.write_to_file (c : RecvCtx) : Except PyErr Unit :=
  if c.packets.isEmpty then Except.ok () else Except.error PyErr.typeError

/-- The in-place `self.packets.sort(key=lambda x: x["seq"])` of
`RecvCtx.build_file` (line 167). -/
def RecvCtx.sortPackets (c : RecvCtx) : RecvCtx :=
  { c with packets := c.packets.insertionSort (fun a b => a.seq ≤ b.seq) }

/-- `RecvCtx.build_file` (lines 166-169): sort in place, then call the
(shadowing) `write_to_file`.  Returns the error, if any, together with the
context as mutated so far. -/
def RecvCtx.build_file (c : RecvCtx) : Option PyErr × RecvCtx :=
  let c2 := c.sortPackets
  match c2.write_to_file with
  | Except.error e => (some e, c2)
  | Except.ok _ => (none, c2)

/-- `RecvCtx.save` (lines 176-178): `build_file()` followed by another
`write_to_file()`; an exception in either aborts the rest. -/
def RecvCtx.save (c : RecvCtx) : Option PyErr × RecvCtx :=
  match c.build_file with
  | (some e, c2) => (some e, c2)
  | (none, c2) =>
    match c2.write_to_file with
    | Except.error e => (some e, c2)
    | Except.ok _ => (none, c2)

/-- One known peer: `self.peers[ip] = (time.time(), data["myname"])`. -/
structure PeerRec where
  ip : String
  lastSeen : Int
  name : String
deriving DecidableEq, Repr

/-- The pruning sweep at the bottom of `Netchat.listen_broadcast`
(lines 507-511): drop every peer with `now - last_seen > PRUNING_PERIOD`. -/
def prunePeers (now : Int) (ps : List PeerRec) : List PeerRec :=
  ps.filter (fun p => !(decide (now - p.lastSeen > PRUNING_PERIOD)))

/-- Upsert into the peer table, `self.peers[ip] = (t, name)`. -/
def upsertPeer (ip : String) (t : Int) (n : String) (ps : List PeerRec) : List PeerRec :=
  if ps.any (fun p => p.ip == ip) then
    ps.map (fun p => if p.ip == ip then { ip := ip, lastSeen := t, name := n } else p)
  else ps ++ [{ ip := ip, lastSeen := t, name := n }]

/-- Membership test `ip in self.peers.keys()`. -/
def hasPeerIp (ps : List PeerRec) (ip : String) : Bool :=
  ps.any (fun p => p.ip == ip)

/-- Association-list lookup modelling `d[k]` on a string-keyed dict
(`none` = `KeyError`). -/
def lookupS {α : Type} (l : List (String × α)) (k : String) : Option α :=
  (l.find? (fun kv => kv.1 == k)).map (fun kv => kv.2)

/-- Association-list store modelling `d[k] = v`. -/
def setS {α : Type} (l : List (String × α)) (k : String) (v : α) : List (String × α) :=
  if l.any (fun kv => kv.1 == k) then
    l.map (fun kv => if kv.1 == k then (k, v) else kv)
  else l ++ [(k, v)]

/-- The process-wide `self.recv_ctxs`: keyed by peer ip, then by file name;
a slot holds `None` after a completed save (line 452). -/
def RecvSt : Type := List (String × List (String × Option RecvCtx))

/-- `d[ip][name] = v` on the two-level map (only used when `ip` is
present). -/
def set2R (m : RecvSt) (ip k : String) (v : Option RecvCtx) : RecvSt :=
  setS m ip (setS ((lookupS m ip).getD []) k v)

/-- A conforming inbound type-4 file message, with the fields the
`FILE_MESSAGE` schema and `SendCtx.build_message` actually put on the wire:
`name`, `seq` and `body`.  (There is no `content` field — which matters
below.) -/
structure FileIn where
  name : String
  seq : Nat
  body : List Nat
deriving DecidableEq, Repr

/-- Result of the inbound-file branch: the exception raised (if any), the
`recv_ctxs` map as mutated up to that point, and the type-5 acks sent.  The
source branch contains no send call at all, so `sent` is always `[]`. -/
structure FileRes where
  err : Option PyErr
  recv : RecvSt
  sent : List AckMsg

/-- The `FILE_MESSAGE` branch of `Netchat.process_message` (lines 436-452),
for a conforming inbound chunk from peer `ip`:
* line 437 interpolates `self.peers[ip]` into a log string — `KeyError`
  when the peer is unknown (`hasPeer = false`);
* line 442 reads `self.recv_ctxs[ip]` — `KeyError`: nothing in the program
  ever inserts an ip key into `recv_ctxs`;
* line 443 calls `RecvCtx(data["name"], ip)` — `TypeError`: the
  constructor (line 130) requires a third argument `packet_count`;
* line 445 reads `data["content"]` — `KeyError`: a conforming type-4
  message carries `body`, not `content`;
* a `None` slot (left by line 452) gives `AttributeError` on
  `add_packet`;
* on a stored context, `add_packet` then possibly `save()` run, `save`
  raising `TypeError` (see `RecvCtx.write_to_file`) on any non-empty
  packet list.
No branch sends an ack. -/
def processFileMsg (hasPeer : Bool) (st : RecvSt) (ip : String) (m : FileIn) : FileRes :=
  if !hasPeer then { err := some PyErr.keyError, recv := st, sent := [] }
  else
    match lookupS st ip with
    | none => { err := some PyErr.keyError, recv := st, sent := [] }
    | some tbl =>
      match lookupS tbl m.name with
      | none => { err := some PyErr.typeError, recv := st, sent := [] }
      | some octx =>
        if m.seq == 0 then { err := some PyErr.keyError, recv := st, sent := [] }
        else
          match octx with
          | none => { err := some PyErr.attributeError, recv := st, sent := [] }
          | some ctx =>
            let ctx2 := ctx.add_packet { seq := m.seq, body := m.body }
            if ctx2.is_complete then
              match ctx2.save with
              | (some e, c3) => { err := some e, recv := set2R st ip m.name (some c3), sent := [] }
              | (none, _) => { err := none, recv := set2R st ip m.name none, sent := [] }
            else { err := none, recv := set2R st ip m.name (some ctx2), sent := [] }

/-- The process-wide `self.send_ctxs`, same shape as `recv_ctxs`. -/
def SendSt : Type := List (String × List (String × Option SendCtx))

/-- `d[ip][name] = v` on the send-context map. -/
def set2S (m : SendSt) (ip k : String) (v : Option SendCtx) : SendSt :=
  setS m ip (setS ((lookupS m ip).getD []) k v)

/-- The shared mutable state `process_message` touches. -/
structure NodeSt where
  peers : List PeerRec
  send_ctxs : SendSt
  recv_ctxs : RecvSt

/-- A successfully json-decoded inbound message, one constructor per
`type` discriminant the dispatch chain of `process_message` tests. -/
inductive InMsg
  | hello (myname : String)
  | aleykumselam (myname : String)
  | chat (content : String)
  | fileMsg (m : FileIn)
  | ackMsg (name : String) (s : Nat) (cr : Nat)

/-- The body of the `try:` block of `Netchat.process_message`
(lines 395-452), at time `t`, for a message from `ip` (self ip `selfIp`):
* `hello`: when `ip != self`, upsert the peer (the listener spawn and the
  `aleykumselam` reply are external effects not touching the shared maps);
* `aleykumselam`: upsert the peer;
* `message`: line 413 interpolates `self.peers[ip]` — `KeyError` for an
  unknown peer — else only prints;
* type-5 ack: line 422 interpolates `self.peers[ip]` (`KeyError` for an
  unknown peer); then `self.send_ctxs[ip][name]` (`KeyError` when absent,
  `AttributeError` on a `None` slot), then `SendCtx.ackStep`;
* type-4 file: `processFileMsg`.
Every raise is caught by the two `except` clauses (lines 454-458), which
log and fall through. -/
def processBody (selfIp ip : String) (t : Int) (st : NodeSt) : InMsg → Option PyErr × NodeSt
  | InMsg.hello n =>
    if ip == selfIp then (none, st)
    else (none, { st with peers := upsertPeer ip t n st.peers })
  | InMsg.aleykumselam n => (none, { st with peers := upsertPeer ip t n st.peers })
  | InMsg.chat _ =>
    if hasPeerIp st.peers ip then (none, st) else (some PyErr.keyError, st)
  | InMsg.ackMsg name s cr =>
    if !hasPeerIp st.peers ip then (some PyErr.keyError, st)
    else
      match lookupS st.send_ctxs ip with
      | none => (some PyErr.keyError, st)
      | some tbl =>
        match lookupS tbl name with
        | none => (some PyErr.keyError, st)
        | some none => (some PyErr.attributeError, st)
        | some (some c) =>
          match c.ackStep s cr with
          | none => (none, { st with send_ctxs := set2S st.send_ctxs ip name none })
          | some c2 => (none, { st with send_ctxs := set2S st.send_ctxs ip name (some c2) })
  | InMsg.fileMsg m =>
    let r := processFileMsg (hasPeerIp st.peers ip) st.recv_ctxs ip m
    (r.err, { st with recv_ctxs := r.recv })

/-- An inbound byte string: either not valid JSON, or decoded to a message. -/
inductive RawIn
  | malformed
  | parsed (m : InMsg)

/-- `Netchat.process_message` (lines 393-458) end to end.  Crucially,
line 394 `data = json.loads(data)` sits OUTSIDE the `try:` that starts on
line 395, so a json decode failure propagates out of the function (and its
callers `listen_peer` / `listen_broadcast` wrap it in no handler); every
error raised inside the `try:` body is caught and only logged. -/
def processMessage (selfIp ip : String) (t : Int) (st : NodeSt) :
    RawIn → Except PyErr NodeSt
  | RawIn.malformed => Except.error PyErr.jsonDecode
  | RawIn.parsed m => Except.ok (processBody selfIp ip t st m).2

/-- The 4517-byte (`3 × BATCH_SIZE + 17`) source file of the round-trip
property, as the byte list `[0, 1, …, 4516 mod 256 …]`-like; the content
is irrelevant, only its length matters. -/
def file4517 : List Nat := List.range 4517

/-- A 7501-byte file, giving `packet_count = 6`; used to drive a longer
window. -/
def file7501 : List Nat := List.range 7501

/-- Invariant bundle used to track a send context whose chunk count is
`pc`: the count never changes and the cursor never passes
`packet_count - 1` (the `get_next_message` guard). -/
def InvPC (pc : Nat) (o : Option SendCtx) : Prop :=
  ∀ c, o = some c → c.packet_count = pc ∧ c.seq ≤ pc - 1

/-- State predicate for a context that has not yet processed any
acknowledgement: the credit is still the constructor default 1 and at most
one chunk is in flight. -/
def RwndOne (o : Option SendCtx) : Prop :=
  ∀ c, o = some c → c.rwnd = 1 ∧ c.on_fly.length ≤ 1

/-- The two invariants claimed for a send context — window bound and
in-flight/acknowledged disjointness — strengthened with the bookkeeping
facts (every in-flight or acknowledged sequence number lies below the send
cursor) that make them inductive. -/
def SendInv (c : SendCtx) : Prop :=
  c.on_fly.length ≤ c.rwnd ∧
  (∀ n, ¬(n ∈ c.on_fly.map Prod.snd ∧ n ∈ c.acked)) ∧
  (∀ n ∈ c.on_fly.map Prod.snd, n < c.seq) ∧
  (∀ n ∈ c.acked, n < c.seq)

/-! ## Helper lemmas -/

theorem chunksOf_join_aux (k : Nat) (hk : 1 ≤ k) :
    ∀ (n : Nat) (l : List Nat), l.length ≤ n → (chunksOf k l).flatten = l := by
  intro n
  induction n with
  | zero =>
    intro l hl
    have h0 : l = [] := List.eq_nil_of_length_eq_zero (Nat.le_zero.mp hl)
    subst h0
    simp [chunksOf]
  | succ n ih =>
    intro l hl
    match l with
    | [] => simp [chunksOf]
    | x :: xs =>
      rw [chunksOf]
      simp only [List.flatten_cons]
      rw [ih (xs.drop (k - 1)) (by simp only [List.length_drop]; simp only [List.length_cons] at hl; omega)]
      have hk2 : k = (k - 1) + 1 := by omega
      rw [hk2, List.take_succ_cons]
      simp only [Nat.add_sub_cancel]
      rw [List.cons_append, List.take_append_drop]

/-- Concatenating the batches read by `SendCtx.__init__` gives back the file
byte for byte. -/
theorem chunksOf_join (k : Nat) (hk : 1 ≤ k) (l : List Nat) :
    (chunksOf k l).flatten = l :=
  chunksOf_join_aux k hk l.length l le_rfl

theorem chunksOf_length_aux :
    ∀ (n : Nat) (l : List Nat), l.length ≤ n →
      (chunksOf 1500 l).length = (l.length + 1499) / 1500 := by
  intro n
  induction n with
  | zero =>
    intro l hl
    have h0 : l = [] := List.eq_nil_of_length_eq_zero (Nat.le_zero.mp hl)
    subst h0
    simp [chunksOf]
  | succ n ih =>
    intro l hl
    match l with
    | [] => simp [chunksOf]
    | x :: xs =>
      rw [chunksOf]
      simp only [List.length_cons]
      rw [ih (xs.drop (1500 - 1)) (by simp only [List.length_drop]; simp only [List.length_cons] at hl; omega)]
      simp only [List.length_drop, List.length_cons]
      omega

/-- The number of batches read at `BATCH_SIZE = 1500` is the rounded-up
quotient, matching the `packet_count` formula of line 75. -/
theorem chunksOf_length_1500 (l : List Nat) :
    (chunksOf 1500 l).length = (l.length + 1499) / 1500 :=
  chunksOf_length_aux l.length l le_rfl

/-- A state predicate preserved by every event of a run is preserved by the
whole run. -/
theorem run_inv_on {P : Option SendCtx → Prop} :
    ∀ (es : List Ev) (o : Option SendCtx),
      (∀ o2 e, e ∈ es → P o2 → P (step o2 e).1) → P o → P (run o es).1 := by
  intro es
  induction es with
  | nil => intro o _ h; simpa [run] using h
  | cons e es ih =>
    intro o hstep h
    have h2 : P (run (step o e).1 es).1 :=
      ih (step o e).1 (fun o2 e2 he2 => hstep o2 e2 (List.mem_cons_of_mem _ he2))
        (hstep o e (List.mem_cons_self _ _) h)
    simpa [run] using h2

/-- Anything emitted during a run was emitted by some step from a state
satisfying the preserved predicate. -/
theorem run_ems_on {P : Option SendCtx → Prop} {Q : Emission → Prop} :
    ∀ (es : List Ev) (o : Option SendCtx),
      (∀ o2 e, e ∈ es → P o2 → P (step o2 e).1) →
      (∀ o2 e, e ∈ es → P o2 → ∀ m ∈ (step o2 e).2, Q m) →
      P o → ∀ m ∈ (run o es).2, Q m := by
  intro es
  induction es with
  | nil => intro o _ _ _ m hm; simp [run] at hm
  | cons e es ih =>
    intro o hstep hems h m hm
    rw [run] at hm
    simp only [List.mem_append] at hm
    rcases hm with hm | hm
    · exact hems o e (List.mem_cons_self _ _) h m hm
    · exact ih (step o e).1 (fun o2 e2 he2 => hstep o2 e2 (List.mem_cons_of_mem _ he2))
        (fun o2 e2 he2 => hems o2 e2 (List.mem_cons_of_mem _ he2))
        (hstep o e (List.mem_cons_self _ _) h) m hm

theorem build_message_seq (c : SendCtx) (s : Nat) : (c.build_message s).seq = s := by
  rw [SendCtx.build_message]
  split <;> rfl

/-- The three possible outcomes of one daemon pass over one context:
deletion of a complete context; no state change (window closed); or one
fresh send appended to `on_fly` with the cursor advanced. -/
theorem daemonPass_shape (t : Nat) (c : SendCtx) :
    ((daemonPass t c) = (none, ([] : List Emission)) ∧ c.is_complete = true) ∨
    ((daemonPass t c) = (some c, retransOf t c) ∧ c.is_complete = false) ∨
    ((c.seq == c.packet_count - 1) = false ∧ c.on_fly.length < c.rwnd ∧
     (daemonPass t c) =
       (some { c with on_fly := c.on_fly ++ [(t, c.seq)], seq := c.seq + 1 },
        retransOf t c ++ [Emission.send (some (c.build_message c.seq))])) := by
  rw [daemonPass]
  by_cases h1 : c.is_complete = true
  · rw [if_pos h1]; exact Or.inl ⟨rfl, h1⟩
  · have h1f : c.is_complete = false := Bool.not_eq_true _ ▸ Bool.eq_false_iff.mpr (by
      intro hx; exact h1 hx)
    rw [if_neg h1]
    by_cases h2 : c.is_open_to_send = true
    · have hne : (c.seq == c.packet_count - 1) = false := by
        rw [SendCtx.is_complete] at h1f; exact h1f
      have hlt : c.on_fly.length < c.rwnd := by
        rw [SendCtx.is_open_to_send, Bool.and_eq_true] at h2
        exact of_decide_eq_true h2.1
      rw [if_pos h2]
      refine Or.inr (Or.inr ⟨hne, hlt, ?_⟩)
      rw [SendCtx.get_next_message, if_neg (by simp [hne])]
    · rw [if_neg h2]
      exact Or.inr (Or.inl ⟨rfl, h1f⟩)

/-- The two possible outcomes of the ack handler on a looked-up context:
deletion when `is_complete()`, else `rwnd` overwrite followed by `ack`. -/
theorem ackStep_shape (c : SendCtx) (s cr : Nat) :
    (c.ackStep s cr = none ∧ SendCtx.is_complete { c with rwnd := cr } = true) ∨
    (SendCtx.is_complete { c with rwnd := cr } = false ∧
     c.ackStep s cr = some (SendCtx.ack { c with rwnd := cr } s)) := by
  rw [SendCtx.ackStep]
  by_cases h : SendCtx.is_complete { c with rwnd := cr } = true
  · rw [if_pos h]; exact Or.inl ⟨rfl, h⟩
  · rw [if_neg h]
    exact Or.inr ⟨Bool.eq_false_iff.mpr (fun hx => h hx), rfl⟩

theorem step_InvPC (pc : Nat) (o : Option SendCtx) (e : Ev) (h : InvPC pc o) :
    InvPC pc (step o e).1 := by
  intro c2 hc2
  match o, e with
  | none, Ev.tick t => exact nomatch hc2
  | none, Ev.ack s cr => exact nomatch hc2
  | some c, Ev.tick t =>
    obtain ⟨hpc, hseq⟩ := h c rfl
    simp only [step] at hc2
    rcases daemonPass_shape t c with ⟨heq, _⟩ | ⟨heq, _⟩ | ⟨hne, _, heq⟩ <;>
      rw [heq] at hc2
    · exact nomatch hc2
    · injection hc2 with hc2; subst hc2; exact ⟨hpc, hseq⟩
    · injection hc2 with hc2
      subst hc2
      refine ⟨hpc, ?_⟩
      simp only []
      have : c.seq ≠ c.packet_count - 1 := by
        intro hx; rw [hx] at hne; simp at hne
      omega
  | some c, Ev.ack s cr =>
    obtain ⟨hpc, hseq⟩ := h c rfl
    simp only [step] at hc2
    rcases ackStep_shape c s cr with ⟨heq, _⟩ | ⟨_, heq⟩ <;> rw [heq] at hc2
    · exact nomatch hc2
    · injection hc2 with hc2
      subst hc2
      exact ⟨hpc, hseq⟩

/-- Every fresh (first-transmission) sequence number a step emits is at most
`packet_count - 2`: the cursor stops at `packet_count - 1` and emits the
pre-increment value. -/
theorem step_fresh (pc : Nat) (o : Option SendCtx) (e : Ev) (h : InvPC pc o) :
    ∀ m ∈ (step o e).2, ∀ s, freshSeqOf m = some s → s + 2 ≤ pc := by
  intro m hm s hs
  match o, e with
  | none, Ev.tick t => simp [step] at hm
  | none, Ev.ack s2 cr => simp [step] at hm
  | some c, Ev.ack s2 cr => simp [step] at hm
  | some c, Ev.tick t =>
    obtain ⟨hpc, hseq⟩ := h c rfl
    simp only [step] at hm
    rcases daemonPass_shape t c with ⟨heq, _⟩ | ⟨heq, _⟩ | ⟨hne, _, heq⟩ <;>
      rw [heq] at hm
    · simp at hm
    · rw [retransOf] at hm
      simp only [List.mem_map] at hm
      obtain ⟨p, _, hp⟩ := hm
      rw [← hp] at hs
      exact nomatch hs
    · simp only [List.mem_append] at hm
      rcases hm with hm | hm
      · rw [retransOf] at hm
        simp only [List.mem_map] at hm
        obtain ⟨p, _, hp⟩ := hm
        rw [← hp] at hs
        exact nomatch hs
      · simp only [List.mem_singleton] at hm
        subst hm
        rw [freshSeqOf] at hs
        injection hs with hs
        rw [← hs, build_message_seq]
        have : c.seq ≠ c.packet_count - 1 := by
          intro hx; rw [hx] at hne; simp at hne
        omega

/-- Over any whole run from a fresh context with `packet_count = pc ≥ 2`,
every first-transmitted sequence number is at most `pc - 2`. -/
theorem sentFresh_bound (ip : String) (pc : Nat) (file : List Nat)
    (hpc : (mkSendCtx ip file).packet_count = pc) (hpc2 : 2 ≤ pc) (es : List Ev) :
    ∀ s ∈ sentFresh (run (some (mkSendCtx ip file)) es), s + 2 ≤ pc := by
  have h0 : InvPC pc (some (mkSendCtx ip file)) := by
    intro c hc
    injection hc with hc
    subst hc
    refine ⟨hpc, ?_⟩
    show 1 ≤ pc - 1
    omega
  intro s hs
  rw [sentFresh, List.mem_filterMap] at hs
  obtain ⟨m, hm, hfm⟩ := hs
  exact run_ems_on es _ (fun o2 e _ => step_InvPC pc o2 e)
    (fun o2 e _ h2 => step_fresh pc o2 e h2) h0 m hm s hfm

theorem mkSendCtx_pc (ip : String) (file : List Nat) (n : Nat) (hlen : file.length = n) :
    (mkSendCtx ip file).packet_count = packetCount n BATCH_SIZE := by
  simp [mkSendCtx, hlen]

/-- With the default credit 1 still in force, a daemon pass keeps at most
one chunk in flight. -/
theorem tick_RwndOne (o : Option SendCtx) (t : Nat) (h : RwndOne o) :
    RwndOne (step o (Ev.tick t)).1 := by
  intro c2 hc2
  match o with
  | none => exact nomatch hc2
  | some c =>
    obtain ⟨hr, hf⟩ := h c rfl
    simp only [step] at hc2
    rcases daemonPass_shape t c with ⟨heq, _⟩ | ⟨heq, _⟩ | ⟨_, hlt, heq⟩ <;>
      rw [heq] at hc2
    · exact nomatch hc2
    · injection hc2 with hc2; subst hc2; exact ⟨hr, hf⟩
    · injection hc2 with hc2
      subst hc2
      refine ⟨hr, ?_⟩
      simp only [List.length_append, List.length_cons, List.length_nil]
      omega

/-- `SendCtx.ack` is idempotent on the raw context. -/
theorem ack_ack (c : SendCtx) (s : Nat) : (c.ack s).ack s = c.ack s := by
  rw [SendCtx.ack, SendCtx.ack]
  by_cases h : c.acked.contains s = true
  · rw [if_pos h]
    simp only []
    rw [if_pos h]
    simp [List.filter_filter]
  · rw [if_neg h]
    simp only []
    rw [if_pos (by simp)]
    simp [List.filter_filter]

/-- Applying the full ack-handling step twice with the same `(seq, rwnd)`
leaves the same context (or the same deleted slot) as applying it once. -/
theorem ack_idem_step (o : Option SendCtx) (s cr : Nat) :
    (step (step o (Ev.ack s cr)).1 (Ev.ack s cr)).1 = (step o (Ev.ack s cr)).1 := by
  match o with
  | none => rfl
  | some c =>
    rcases ackStep_shape c s cr with ⟨heq, _⟩ | ⟨hco, heq⟩
    · simp only [step, heq]
    · simp only [step, heq]
      rw [SendCtx.ackStep]
      have h2 : (SendCtx.is_complete
          { SendCtx.ack { c with rwnd := cr } s with rwnd := cr }) = false := hco
      rw [if_neg (by rw [h2]; exact fun hx => nomatch hx)]
      rw [show ({ SendCtx.ack { c with rwnd := cr } s with rwnd := cr } : SendCtx)
            = SendCtx.ack { c with rwnd := cr } s from rfl]
      rw [ack_ack]

theorem mkSendCtx_SendInv (ip : String) (file : List Nat) : SendInv (mkSendCtx ip file) := by
  refine ⟨?_, ?_, ?_, ?_⟩ <;> simp [mkSendCtx, SendInv]

/-- A daemon pass preserves the window bound, disjointness and the cursor
bookkeeping. -/
theorem daemonPass_SendInv (t : Nat) (c c2 : SendCtx) (h : SendInv c)
    (heq : (daemonPass t c).1 = some c2) : SendInv c2 := by
  obtain ⟨hw, hd, hfb, hab⟩ := h
  rcases daemonPass_shape t c with ⟨he, _⟩ | ⟨he, _⟩ | ⟨hne, hlt, he⟩ <;> rw [he] at heq
  · exact nomatch heq
  · injection heq with heq; subst heq; exact ⟨hw, hd, hfb, hab⟩
  · injection heq with heq
    subst heq
    refine ⟨?_, ?_, ?_, ?_⟩
    · simp only [List.length_append, List.length_cons, List.length_nil]
      omega
    · intro n hn
      obtain ⟨hn1, hn2⟩ := hn
      simp only [List.map_append, List.mem_append, List.map_cons, List.map_nil,
        List.mem_singleton] at hn1
      rcases hn1 with hn1 | hn1
      · exact hd n ⟨hn1, hn2⟩
      · subst hn1
        exact absurd (hab _ hn2) (by omega)
    · intro n hn
      simp only [List.map_append, List.mem_append, List.map_cons, List.map_nil,
        List.mem_singleton] at hn
      show n < c.seq + 1
      rcases hn with hn | hn
      · exact Nat.lt_succ_of_lt (hfb n hn)
      · omega
    · intro n hn
      exact Nat.lt_succ_of_lt (hab n hn)

/-- The ack handler preserves the invariants provided the acknowledged
sequence number was already transmitted (below the cursor) and the
advertised credit covers what remains in flight. -/
theorem ackStep_SendInv (c : SendCtx) (s cr : Nat) (c2 : SendCtx) (h : SendInv c)
    (hs : s < c.seq) (hcr : (c.on_fly.filter (fun p => p.2 != s)).length ≤ cr)
    (heq : c.ackStep s cr = some c2) : SendInv c2 := by
  obtain ⟨hw, hd, hfb, hab⟩ := h
  rcases ackStep_shape c s cr with ⟨he, _⟩ | ⟨_, he⟩ <;> rw [he] at heq
  · exact nomatch heq
  · injection heq with heq
    subst heq
    rw [SendCtx.ack]
    refine ⟨?_, ?_, ?_, ?_⟩
    · exact hcr
    · intro n hn
      obtain ⟨hn1, hn2⟩ := hn
      simp only [List.mem_map] at hn1
      obtain ⟨p, hp1, hp2⟩ := hn1
      rw [List.mem_filter] at hp1
      obtain ⟨hpfly, hpne⟩ := hp1
      have hne2 : p.2 ≠ s := by simpa using hpne
      by_cases hc : (SendCtx.acked { c with rwnd := cr }).contains s = true
      · rw [if_pos hc] at hn2
        exact hd n ⟨List.mem_map.mpr ⟨p, hpfly, hp2⟩, hn2⟩
      · rw [if_neg hc] at hn2
        rcases List.mem_append.mp hn2 with h2 | h2
        · exact hd n ⟨List.mem_map.mpr ⟨p, hpfly, hp2⟩, h2⟩
        · rw [List.mem_singleton] at h2
          subst h2
          exact hne2 hp2
    · intro n hn
      simp only [List.mem_map] at hn
      obtain ⟨p, hp1, hp2⟩ := hn
      rw [List.mem_filter] at hp1
      exact hp2 ▸ hfb p.2 (List.mem_map.mpr ⟨p, hp1.1, rfl⟩)
    · intro n hn
      by_cases hc : (SendCtx.acked { c with rwnd := cr }).contains s = true
      · rw [if_pos hc] at hn
        exact hab n hn
      · rw [if_neg hc] at hn
        rcases List.mem_append.mp hn with h2 | h2
        · exact hab n h2
        · rw [List.mem_singleton] at h2
          subst h2
          exact hs

/-- No branch of the inbound-file handler emits a type-5 ack. -/
theorem processFileMsg_sent (hp : Bool) (st : RecvSt) (ip : String) (m : FileIn) :
    (processFileMsg hp st ip m).sent = [] := by
  simp only [processFileMsg]
  repeat' split
  all_goals rfl

/-- Membership after a pruning sweep, both directions. -/
theorem prunePeers_mem (now : Int) (ps : List PeerRec) (p : PeerRec) :
    p ∈ prunePeers now ps ↔ p ∈ ps ∧ now - p.lastSeen ≤ PRUNING_PERIOD := by
  rw [prunePeers, List.mem_filter]
  simp [not_lt]

theorem add_packet_idem (c : RecvCtx) (p : RPacket) :
    (c.add_packet p).add_packet p = c.add_packet p := by
  have hmem : ((c.add_packet p).packets.any (fun q => q.seq == p.seq)) = true := by
    rw [RecvCtx.add_packet]
    by_cases h : c.packets.any (fun q => q.seq == p.seq) = true
    · rw [if_pos h]; exact h
    · rw [if_neg h]; simp
  conv_lhs => rw [RecvCtx.add_packet]
  rw [if_pos hmem]

theorem add_packet_nodup (c : RecvCtx) (p : RPacket)
    (h : (c.packets.map RPacket.seq).Nodup) :
    ((c.add_packet p).packets.map RPacket.seq).Nodup := by
  rw [RecvCtx.add_packet]
  by_cases hc : c.packets.any (fun q => q.seq == p.seq) = true
  · rw [if_pos hc]; exact h
  · rw [if_neg hc]
    simp only [List.map_append, List.map_cons, List.map_nil]
    rw [List.nodup_append]
    refine ⟨h, List.nodup_singleton _, ?_⟩
    intro a ha hb
    simp only [List.mem_singleton] at hb
    subst hb
    simp only [List.mem_map] at ha
    obtain ⟨q, hq1, hq2⟩ := ha
    simp only [List.any_eq_true, not_exists, not_and, Bool.not_eq_true] at hc
    have := hc q hq1
    rw [beq_eq_false_iff_ne] at this
    exact this hq2

theorem freshSeqOf_resend (s : Nat) : freshSeqOf (Emission.resend s) = none := rfl

theorem freshSeqOf_send_some (m : FileMsg) :
    freshSeqOf (Emission.send (some m)) = some m.seq := rfl

/-- The effective (shadowing) `write_to_file` raises `TypeError` on any
context holding at least one packet. -/
theorem write_to_file_ne (c : RecvCtx) (hc : c.packets ≠ []) :
    c.write_to_file = Except.error PyErr.typeError := by
  rw [RecvCtx.write_to_file]
  match hp : c.packets with
  | [] => exact absurd hp hc
  | q :: qs => rfl

/-- `RecvCtx.save` raises `TypeError` on any context holding at least one
packet: the file is never written. -/
theorem save_ne (c : RecvCtx) (hc : c.packets ≠ []) :
    (c.save).1 = some PyErr.typeError := by
  have h2 : (c.sortPackets).packets ≠ [] := by
    rw [RecvCtx.sortPackets]
    intro hx
    have hx2 : List.insertionSort (fun a b : RPacket => a.seq ≤ b.seq) c.packets = [] := hx
    have hl := (List.perm_insertionSort (fun a b : RPacket => a.seq ≤ b.seq) c.packets).length_eq
    rw [hx2] at hl
    simp only [List.length_nil] at hl
    exact hc (List.eq_nil_of_length_eq_zero hl.symm)
  rw [RecvCtx.save, RecvCtx.build_file, write_to_file_ne _ h2]

/-! ## Claim theorems -/

/-- C1: the round-trip claim against the code.  What HOLDS of the source:
a `3 × 1500 + 17 = 4517`-byte file gives `packet_count = 4`, is split into
4 batches whose concatenation is the file.  What FAILS: over every possible
run (daemon passes at any times interleaved with any inbound acks), every
first-transmitted sequence number is at most 2 — chunks 3 and 4 are never
sent, because `get_next_message` stops at `packet_count - 1`; and the
receiver-side `save` raises `TypeError` on every non-empty context (the
shadowing `write_to_file` writes packet dicts), so no byte-identical file —
indeed no file at all — is ever written. -/
theorem claimC1 :
    packetCount 4517 1500 = 4 ∧
    (∀ file : List Nat, file.length = 4517 →
       (mkSendCtx "10.0.0.2" file).packet_count = 4 ∧
       (mkSendCtx "10.0.0.2" file).packets.length = 4 ∧
       (mkSendCtx "10.0.0.2" file).packets.flatten = file) ∧
    (∀ file : List Nat, file.length = 4517 → ∀ (es : List Ev),
       ∀ s ∈ sentFresh (run (some (mkSendCtx "10.0.0.2" file)) es), s ≤ 2) ∧
    (∀ c : RecvCtx, c.packets ≠ [] → (c.save).1 = some PyErr.typeError) := by
  refine ⟨by norm_num [packetCount], ?_, ?_, save_ne⟩
  · intro file hlen
    refine ⟨?_, ?_, ?_⟩
    · rw [mkSendCtx_pc _ _ _ hlen]
      norm_num [packetCount, BATCH_SIZE]
    · show (chunksOf BATCH_SIZE file).length = 4
      rw [BATCH_SIZE, chunksOf_length_1500, hlen]
    · show (chunksOf BATCH_SIZE file).flatten = file
      exact chunksOf_join BATCH_SIZE (by norm_num [BATCH_SIZE]) file
  · intro file hlen es s hs
    have h4 : (mkSendCtx "10.0.0.2" file).packet_count = 4 := by
      rw [mkSendCtx_pc _ _ _ hlen]
      norm_num [packetCount, BATCH_SIZE]
    have := sentFresh_bound "10.0.0.2" 4 file h4 (by norm_num) es s hs
    omega

/-- C1, witness: the hypotheses of `claimC1` discharged at the concrete
4517-byte file `file4517`, one daemon pass, and a one-packet receive
context. -/
theorem claimC1_wit :
    (mkSendCtx "10.0.0.2" file4517).packets.flatten = file4517 ∧
    (1 : Nat) ≤ 2 ∧
    ((RecvCtx.mk "f" "10.0.0.2" 4 1 [{ seq := 1, body := [0] }] []).save).1 =
      some PyErr.typeError := by
  refine ⟨(claimC1.2.1 file4517 (by simp [file4517])).2.2, ?_, ?_⟩
  · apply claimC1.2.2.1 file4517 (by simp [file4517]) [Ev.tick 0]
    simp [sentFresh, run, step, daemonPass, retransOf, SendCtx.is_complete,
      SendCtx.is_open_to_send, SendCtx.get_next_message, SendCtx.build_message,
      freshSeqOf, mkSendCtx, packetCount, BATCH_SIZE, file4517]
  · exact claimC1.2.2.2 _ (by simp)

/-- C2: what HOLDS of the daemon pass: it never modifies the existing
`on_fly` entries (so no timestamp is ever refreshed — it only ever appends
one fresh entry), never changes `rwnd` or `acked`, and first-transmits at
most ONE chunk per pass (the source uses `if`, not a `while`).  What FAILS
of the claim: chunks are NOT all eventually first-transmitted — for the
4517-byte file (N = 4), over every possible event sequence neither chunk 3
nor chunk 4 is ever first-transmitted. -/
theorem claimC2 :
    (∀ (t : Nat) (c c2 : SendCtx), (daemonPass t c).1 = some c2 →
       (∃ tail, c2.on_fly = c.on_fly ++ tail) ∧ c2.rwnd = c.rwnd ∧ c2.acked = c.acked) ∧
    (∀ (t : Nat) (c : SendCtx), ((daemonPass t c).2.filterMap freshSeqOf).length ≤ 1) ∧
    (∀ file : List Nat, file.length = 4517 → ∀ es : List Ev,
       3 ∉ sentFresh (run (some (mkSendCtx "10.0.0.2" file)) es) ∧
       4 ∉ sentFresh (run (some (mkSendCtx "10.0.0.2" file)) es)) := by
  refine ⟨?_, ?_, ?_⟩
  · intro t c c2 heq
    rcases daemonPass_shape t c with ⟨he, _⟩ | ⟨he, _⟩ | ⟨_, _, he⟩ <;> rw [he] at heq
    · exact nomatch heq
    · injection heq with heq; subst heq; exact ⟨⟨[], by simp⟩, rfl, rfl⟩
    · injection heq with heq; subst heq; exact ⟨⟨[(t, c.seq)], rfl⟩, rfl, rfl⟩
  · intro t c
    rcases daemonPass_shape t c with ⟨he, _⟩ | ⟨he, _⟩ | ⟨_, _, he⟩ <;> rw [he]
    · simp
    · rw [retransOf, List.filterMap_map]
      have hz : List.filterMap (freshSeqOf ∘ fun p : Nat × Nat => Emission.resend p.2)
          (List.filter (fun p => decide (p.1 + PACKET_TIMEOUT < t)) c.on_fly) = [] :=
        List.filterMap_eq_nil_iff.mpr (fun a _ => rfl)
      rw [hz]
      simp
    · rw [retransOf, List.filterMap_append, List.filterMap_map]
      have hz : List.filterMap (freshSeqOf ∘ fun p : Nat × Nat => Emission.resend p.2)
          (List.filter (fun p => decide (p.1 + PACKET_TIMEOUT < t)) c.on_fly) = [] :=
        List.filterMap_eq_nil_iff.mpr (fun a _ => rfl)
      rw [hz]
      simp [freshSeqOf_send_some]
  · intro file hlen es
    have h4 : (mkSendCtx "10.0.0.2" file).packet_count = 4 := by
      rw [mkSendCtx_pc _ _ _ hlen]
      norm_num [packetCount, BATCH_SIZE]
    constructor
    · intro hmem
      have := sentFresh_bound "10.0.0.2" 4 file h4 (by norm_num) es _ hmem
      omega
    · intro hmem
      have := sentFresh_bound "10.0.0.2" 4 file h4 (by norm_num) es _ hmem
      omega

/-- C2, witness: the hypotheses of `claimC2` discharged at the concrete
4517-byte file and one daemon pass at time 0. -/
theorem claimC2_wit :
    ((∃ tail, ({ mkSendCtx "10.0.0.2" file4517 with
        seq := 2, on_fly := [(0, 1)] } : SendCtx).on_fly =
        (mkSendCtx "10.0.0.2" file4517).on_fly ++ tail)) ∧
    (3 : Nat) ∉ sentFresh (run (some (mkSendCtx "10.0.0.2" file4517)) [Ev.tick 0]) := by
  constructor
  · refine (claimC2.1 0 (mkSendCtx "10.0.0.2" file4517) _ ?_).1
    simp [daemonPass, retransOf, SendCtx.is_complete, SendCtx.is_open_to_send,
      SendCtx.get_next_message, mkSendCtx, packetCount, BATCH_SIZE, file4517]
  · exact (claimC2.2.2 file4517 (by simp [file4517]) [Ev.tick 0]).1

/-- C3: the inbound-chunk handler (the `FILE_MESSAGE` branch of
`process_message`) sends NO `FileAck` on any input whatsoever (the branch
contains no send call), and on the first chunk from a peer — here a known
peer at `10.0.0.2` with an empty `recv_ctxs` — it raises `KeyError`,
creating no context and storing nothing: the claim's context creation,
idempotent insert and unconditional ack reply all fail on the code. -/
theorem claimC3 :
    (∀ (hp : Bool) (st : RecvSt) (ip : String) (m : FileIn),
        (processFileMsg hp st ip m).sent = []) ∧
    processFileMsg true [] "10.0.0.2" { name := "f", seq := 1, body := [7] } =
      { err := some PyErr.keyError, recv := [], sent := [] } :=
  ⟨processFileMsg_sent, rfl⟩

/-- C4, counterexample: the claim as stated — window bound and
in-flight/acknowledged disjointness at every reachable point of a send's
lifetime — is false.  From the fresh context of a 7501-byte file (N = 6),
the event sequence tick, ack(1, 5), tick, tick, ack(3, 0) is processed
without error and ends in a state with one chunk in flight but credit 0. -/
theorem claimC4_cex :
    (∀ (file : List Nat) (es : List Ev) (c : SendCtx),
        (run (some (mkSendCtx "10.0.0.2" file)) es).1 = some c →
        c.on_fly.length ≤ c.rwnd ∧ ∀ n, ¬(n ∈ c.on_fly.map Prod.snd ∧ n ∈ c.acked)) =
      False := by
  refine eq_false ?_
  intro h
  have hr : (run (some (mkSendCtx "10.0.0.2" file7501))
      [Ev.tick 0, Ev.ack 1 5, Ev.tick 1, Ev.tick 2, Ev.ack 3 0]).1 =
      some { mkSendCtx "10.0.0.2" file7501 with
              seq := 4, rwnd := 0, acked := [1, 3], on_fly := [(1, 2)] } := by
    simp [run, step, daemonPass, retransOf, SendCtx.is_complete, SendCtx.is_open_to_send,
      SendCtx.get_next_message, SendCtx.ackStep, SendCtx.ack, mkSendCtx, packetCount,
      BATCH_SIZE, PACKET_TIMEOUT, file7501]
  have h2 := (h file7501 _ _ hr).1
  simp at h2

/-- C4, amended: the invariants hold at creation and are preserved by every
daemon pass; an acknowledgement step preserves them provided it
acknowledges an already-transmitted sequence number (below the cursor) and
advertises credit at least the remaining in-flight count.  (`SendInv` also
carries the bookkeeping — in-flight and acknowledged numbers lie below the
cursor — that makes the pair inductive.) -/
theorem claimC4_amended :
    (∀ (ip : String) (file : List Nat), SendInv (mkSendCtx ip file)) ∧
    (∀ (t : Nat) (c c2 : SendCtx), SendInv c → (daemonPass t c).1 = some c2 → SendInv c2) ∧
    (∀ (c : SendCtx) (s cr : Nat) (c2 : SendCtx), SendInv c → s < c.seq →
       (c.on_fly.filter (fun p => p.2 != s)).length ≤ cr →
       c.ackStep s cr = some c2 → SendInv c2) :=
  ⟨mkSendCtx_SendInv, daemonPass_SendInv, ackStep_SendInv⟩

/-- C4, witness: `claimC4_amended` applied at the 7501-byte file's fresh
context, one daemon pass at time 0, then an in-bounds ack(1, 5). -/
theorem claimC4_wit :
    SendInv { mkSendCtx "10.0.0.2" file7501 with seq := 2, on_fly := [(0, 1)] } ∧
    SendInv { mkSendCtx "10.0.0.2" file7501 with
               seq := 2, rwnd := 5, acked := [1], on_fly := [] } := by
  have h1 : SendInv ({ mkSendCtx "10.0.0.2" file7501 with
      seq := 2, on_fly := [(0, 1)] } : SendCtx) := by
    apply claimC4_amended.2.1 0 (mkSendCtx "10.0.0.2" file7501) _
      (claimC4_amended.1 "10.0.0.2" file7501)
    simp [daemonPass, retransOf, SendCtx.is_complete, SendCtx.is_open_to_send,
      SendCtx.get_next_message, mkSendCtx, packetCount, BATCH_SIZE, file7501]
  refine ⟨h1, ?_⟩
  apply claimC4_amended.2.2 { mkSendCtx "10.0.0.2" file7501 with seq := 2, on_fly := [(0, 1)] }
    1 5 _ h1 (by decide) (by decide)
  simp [SendCtx.ackStep, SendCtx.ack, SendCtx.is_complete, mkSendCtx, packetCount,
    BATCH_SIZE, file7501]

/-- C5: `is_complete()` is a cursor test, not an acknowledged-count test.
For the 4517-byte file (N = 4): delivering acks for all four chunks leaves
`acked = [1,2,3,4]` yet `is_complete` FALSE (so the daemon never removes
the context); conversely after two daemon passes and a single ack the
cursor reaches 3 and `is_complete` is TRUE with one chunk acknowledged. -/
theorem claimC5 :
    ((run (some (mkSendCtx "10.0.0.2" file4517))
        [Ev.ack 1 4, Ev.ack 2 4, Ev.ack 3 4, Ev.ack 4 4]).1 =
      some { mkSendCtx "10.0.0.2" file4517 with rwnd := 4, acked := [1, 2, 3, 4] } ∧
     SendCtx.is_complete
       { mkSendCtx "10.0.0.2" file4517 with rwnd := 4, acked := [1, 2, 3, 4] } = false) ∧
    ((run (some (mkSendCtx "10.0.0.2" file4517)) [Ev.tick 0, Ev.ack 1 4, Ev.tick 1]).1 =
      some { mkSendCtx "10.0.0.2" file4517 with
              seq := 3, rwnd := 4, acked := [1], on_fly := [(1, 2)] } ∧
     SendCtx.is_complete
       { mkSendCtx "10.0.0.2" file4517 with
          seq := 3, rwnd := 4, acked := [1], on_fly := [(1, 2)] } = true) := by
  refine ⟨⟨?_, ?_⟩, ⟨?_, ?_⟩⟩ <;>
    simp [run, step, daemonPass, retransOf, SendCtx.is_complete, SendCtx.is_open_to_send,
      SendCtx.get_next_message, SendCtx.ackStep, SendCtx.ack, mkSendCtx, packetCount,
      BATCH_SIZE, PACKET_TIMEOUT, file4517]

/-- C6: acknowledgement handling is idempotent — the full handler step
(set `rwnd`, delete if `is_complete`, else `ack`) applied twice with the
same `(seq, credit)` equals applying it once, on every context state
including an already-deleted slot; and the handler sets the credit to the
advertised value, appends `seq` to `acked` only if absent, and filters it
out of `on_fly`. -/
theorem claimC6 :
    (∀ (o : Option SendCtx) (s cr : Nat),
       (step (step o (Ev.ack s cr)).1 (Ev.ack s cr)).1 = (step o (Ev.ack s cr)).1) ∧
    (∀ (c : SendCtx) (s cr : Nat),
       (SendCtx.ack { c with rwnd := cr } s).rwnd = cr ∧
       (SendCtx.ack { c with rwnd := cr } s).acked =
         (if c.acked.contains s then c.acked else c.acked ++ [s]) ∧
       (SendCtx.ack { c with rwnd := cr } s).on_fly =
         c.on_fly.filter (fun p => p.2 != s)) :=
  ⟨ack_idem_step, fun _ _ _ => ⟨rfl, rfl, rfl⟩⟩

/-- C7: duplicate-chunk safety — `add_packet` applied twice with the same
packet equals applying it once, and it preserves distinctness of the stored
sequence numbers (no sequence number is ever stored twice). -/
theorem claimC7 :
    (∀ (c : RecvCtx) (p : RPacket), (c.add_packet p).add_packet p = c.add_packet p) ∧
    (∀ (c : RecvCtx) (p : RPacket), (c.packets.map RPacket.seq).Nodup →
       ((c.add_packet p).packets.map RPacket.seq).Nodup) :=
  ⟨add_packet_idem, add_packet_nodup⟩

/-- C7, witness: `claimC7` applied to an empty context and one concrete
packet. -/
theorem claimC7_wit :
    (((RecvCtx.mk "f" "10.0.0.2" 4 1 [] []).add_packet
        { seq := 1, body := [0] }).packets.map RPacket.seq).Nodup :=
  claimC7.2 _ _ (by simp)

/-- C8: `json.loads` sits OUTSIDE the `try:` of `process_message`, so a
malformed inbound byte string makes the function raise (the error reaches
the listener loop, which has no handler), while every message that does
parse is handled with all internal errors caught — the function returns
normally.  This refutes the claim that no inbound message can raise out of
the processing path. -/
theorem claimC8 :
    (∀ (selfIp ip : String) (t : Int) (st : NodeSt),
        processMessage selfIp ip t st RawIn.malformed = Except.error PyErr.jsonDecode) ∧
    (∀ (selfIp ip : String) (t : Int) (st : NodeSt) (m : InMsg),
        ∃ st2, processMessage selfIp ip t st (RawIn.parsed m) = Except.ok st2) :=
  ⟨fun _ _ _ _ => rfl, fun selfIp ip t st m => ⟨(processBody selfIp ip t st m).2, rfl⟩⟩

/-- C9: the pruning sweep keeps exactly the peers with
`now - last_seen ≤ PRUNING_PERIOD = 120`; concretely, at `now = 1000` a
peer last seen at 879 (121 s ago) is removed and one last seen at 940
(60 s ago) is kept. -/
theorem claimC9 :
    (∀ (now : Int) (ps : List PeerRec) (p : PeerRec),
        p ∈ prunePeers now ps ↔ p ∈ ps ∧ now - p.lastSeen ≤ PRUNING_PERIOD) ∧
    prunePeers 1000 [{ ip := "10.0.0.1", lastSeen := 879, name := "alice" },
                     { ip := "10.0.0.2", lastSeen := 940, name := "bob" }] =
      [{ ip := "10.0.0.2", lastSeen := 940, name := "bob" }] := by
  refine ⟨prunePeers_mem, ?_⟩
  rfl

/-- C10: every context the `:send_file` command creates starts with
credit (`rwnd`) 1, and under daemon passes alone (no acknowledgement
having arrived to overwrite the credit) at most one chunk is ever in
flight. -/
theorem claimC10 :
    (∀ (ip : String) (file : List Nat), (mkSendCtx ip file).rwnd = 1) ∧
    (∀ (file : List Nat) (ts : List Nat) (c2 : SendCtx),
       (run (some (mkSendCtx "10.0.0.2" file)) (ts.map Ev.tick)).1 = some c2 →
       c2.on_fly.length ≤ 1 ∧ c2.rwnd = 1) := by
  refine ⟨fun ip file => rfl, ?_⟩
  intro file ts c2 heq
  have h0 : RwndOne (some (mkSendCtx "10.0.0.2" file)) := by
    intro c hc
    injection hc with hc
    subst hc
    exact ⟨rfl, by simp [mkSendCtx]⟩
  have h2 := run_inv_on (P := RwndOne) (ts.map Ev.tick) (some (mkSendCtx "10.0.0.2" file))
    (fun o2 e he hP => by
      rw [List.mem_map] at he
      obtain ⟨t, _, ht⟩ := he
      subst ht
      exact tick_RwndOne o2 t hP) h0
  obtain ⟨hr, hf⟩ := h2 c2 heq
  exact ⟨hf, hr⟩

/-- C10, witness: `claimC10` applied at the 4517-byte file and a single
daemon pass at time 0. -/
theorem claimC10_wit :
    ({ mkSendCtx "10.0.0.2" file4517 with
        seq := 2, on_fly := [(0, 1)] } : SendCtx).on_fly.length ≤ 1 ∧
    ({ mkSendCtx "10.0.0.2" file4517 with
        seq := 2, on_fly := [(0, 1)] } : SendCtx).rwnd = 1 := by
  apply claimC10.2 file4517 [0]
  simp [run, step, daemonPass, retransOf, SendCtx.is_complete, SendCtx.is_open_to_send,
    SendCtx.get_next_message, mkSendCtx, packetCount, BATCH_SIZE, file4517]

end Netchat
